import Mathlib

/-!
Verification of the aleph-tui core: the hierarchical status model
(`src/models.rs`), the row flattening and detail resolution performed by
`render` (`src/ui.rs`), and the key dispatch / fetch throttle
(`src/update.rs`).  Rust structs become Lean structures (u32/i64 counters
as Nat/Int, `Option<T>` as `Option T`, `Vec<T>` as `List T`); the
imperative row-building loops become pure list functions; the external
status/metadata calls of `fetch` become explicit outcome parameters.
-/

namespace Aleph

/-- `Links` from src/models.rs (lines 3-10). -/
structure Links where
  self_ : String
  xref_export : String
  reconcile : String
  ui : String
deriving DecidableEq

/-- `Collection` from src/models.rs (lines 12-29). -/
structure Collection where
  created_at : String
  updated_at : String
  category : String
  frequency : String
  countries : Option (List String)
  name : String
  collection_id : String
  foreign_id : String
  label : String
  casefile : Bool
  secret : Bool
  id : String
  writeable : Bool
  links : Links
  shallow : Bool
deriving DecidableEq

/-- `Task` from src/models.rs (lines 31-48). -/
structure Task where
  todo : Nat
  doing : Nat
  succeeded : Nat
  failed : Nat
  aborted : Nat
  aborting : Nat
  cancelled : Nat
  min_ts : Option String
  max_ts : Option String
  name : String
  remaining_time : Option String
  took : Option String
  total : Nat
  active : Nat
  finished : Nat
deriving DecidableEq

/-- `Queue` from src/models.rs (lines 50-68). -/
structure Queue where
  todo : Nat
  doing : Nat
  succeeded : Nat
  failed : Nat
  aborted : Nat
  aborting : Nat
  cancelled : Nat
  min_ts : Option String
  max_ts : Option String
  name : String
  tasks : List Task
  remaining_time : Option String
  took : Option String
  total : Nat
  active : Nat
  finished : Nat
deriving DecidableEq

/-- `Batch` from src/models.rs (lines 70-88). -/
structure Batch where
  todo : Nat
  doing : Nat
  succeeded : Nat
  failed : Nat
  aborted : Nat
  aborting : Nat
  cancelled : Nat
  min_ts : Option String
  max_ts : Option String
  name : String
  queues : List Queue
  remaining_time : Option String
  took : Option String
  total : Nat
  active : Nat
  finished : Nat
deriving DecidableEq

/-- `StatusResult` from src/models.rs (lines 90-109). -/
structure StatusResult where
  todo : Nat
  doing : Nat
  succeeded : Nat
  failed : Nat
  aborted : Nat
  aborting : Nat
  cancelled : Nat
  min_ts : Option String
  max_ts : Option String
  name : String
  batches : List Batch
  collection : Option Collection
  remaining_time : Option String
  took : Option String
  total : Nat
  active : Nat
  finished : Nat
deriving DecidableEq

/-- `Status` from src/models.rs (lines 111-115). -/
structure Status where
  results : List StatusResult
  total : Nat
deriving DecidableEq

/-- `MetadataApp` from src/models.rs (lines 117-122). -/
structure MetadataApp where
  title : Option String
  version : Option String
  ftm_version : Option String
deriving DecidableEq

/-- `Metadata` from src/models.rs (lines 124-129). -/
structure Metadata where
  status : String
  maintenance : Bool
  app : MetadataApp
deriving DecidableEq

/-- Groups a reversed digit list in threes, comma-separated: the digit
grouping of `to_formatted_string(&Locale::en)` used for every counter cell
in src/ui.rs. -/
def groupRev : List Char → List Char
  | a :: b :: c :: d :: rest => a :: b :: c :: ',' :: groupRev (d :: rest)
  | l => l

/-- `n.to_formatted_string(&Locale::en)`: decimal digits with `,` thousands
separators. -/
def formatEn (n : Nat) : String :=
  String.mk (groupRev (toString n).data.reverse).reverse

/-- A row pushed by the table-building loop of `render` (src/ui.rs lines
79-133), tagged with the position of the `StatusResult` whose loop
iteration emitted it (the flattener's back-reference into the model) and
carrying the cell strings the code puts into `Row::new`. -/
inductive DisplayRow where
  | collectionRow (result_index : Nat) (cells : List String)
  | taskRow (result_index : Nat) (cells : List String)
deriving DecidableEq

/-- The `StatusResult` position recorded in a row. -/
def rowOwner : DisplayRow → Nat
  | .collectionRow i _ => i
  | .taskRow i _ => i

/-- Cells of the collection row for one result (src/ui.rs lines 83-109):
collection id / foreign id fall back to "-", the label falls back to
`result.name`, `min_ts` falls back to "-", then the seven counters. -/
def collectionCells (r : StatusResult) : List String :=
  [ (match r.collection with | some c => c.collection_id | none => "-"),
    (match r.collection with | some c => c.foreign_id | none => "-"),
    (match r.collection with | some c => c.label | none => r.name),
    r.min_ts.getD "-",
    formatEn r.todo, formatEn r.doing, formatEn r.succeeded,
    formatEn r.failed, formatEn r.aborted, formatEn r.aborting,
    formatEn r.cancelled ]

/-- Cells of one task row (src/ui.rs lines 115-129): empty collection-id
column, batch name, two-space-indented task name, task `min_ts`, then the
task's seven counters. -/
def taskCells (b : Batch) (t : Task) : List String :=
  [ "", b.name, "  " ++ t.name, t.min_ts.getD "-",
    formatEn t.todo, formatEn t.doing, formatEn t.succeeded,
    formatEn t.failed, formatEn t.aborted, formatEn t.aborting,
    formatEn t.cancelled ]

/-- The task rows emitted for one result by the nested
batches/queues/tasks loops (src/ui.rs lines 112-132), in depth-first
order. -/
def taskRowsOf (i : Nat) (r : StatusResult) : List DisplayRow :=
  r.batches.flatMap fun b =>
    b.queues.flatMap fun q =>
      q.tasks.map fun t => DisplayRow.taskRow i (taskCells b t)

/-- All rows one iteration of the outer `for result in results` loop
pushes: the collection row, then that result's task rows. -/
def resultBlock (i : Nat) (r : StatusResult) : List DisplayRow :=
  DisplayRow.collectionRow i (collectionCells r) :: taskRowsOf i r

/-- The outer loop of src/ui.rs lines 81-133, with `n` the position of the
first remaining result. -/
def flattenFrom (n : Nat) : List StatusResult → List DisplayRow
  | [] => []
  | r :: rest => resultBlock n r ++ flattenFrom (n + 1) rest

/-- The full flattened row sequence `rows` built by `render` for a status
snapshot. -/
def flattenRows (s : Status) : List DisplayRow :=
  flattenFrom 0 s.results

/-- Number of task rows the detail-resolution walk skips for one result:
`for batch { for queue { current_row += queue.tasks.len() } }`
(src/ui.rs lines 182-186). -/
def taskCount (r : StatusResult) : Nat :=
  (r.batches.map fun b => (b.queues.map fun q => q.tasks.length).sum).sum

/-- Flattened position of result number `k`'s collection row: one
collection row plus `taskCount` task rows for every earlier result. -/
def rowStart : List StatusResult → Nat → Nat
  | _, 0 => 0
  | [], _ + 1 => 0
  | r :: rest, k + 1 => 1 + taskCount r + rowStart rest k

/-- The selected-row walk of src/ui.rs lines 171-187: starting from
`current_row = cur`, a result is selected when `current_row == index`;
otherwise `current_row` advances past the collection row and all task
rows of that result. -/
def findResult : List StatusResult → Nat → Nat → Option StatusResult
  | [], _, _ => none
  | r :: rest, cur, index =>
    if cur = index then some r
    else findResult rest (cur + 1 + taskCount r) index

/-- `selected_result` for a selected table index (src/ui.rs lines
169-187); the detail pane is rendered iff this is `some`. -/
def resolveDetail (s : Status) (index : Nat) : Option StatusResult :=
  findResult s.results 0 index

/-- Title of the detail pane (src/ui.rs lines 190-193). -/
def detailTitle (r : StatusResult) : String :=
  match r.collection with
  | some col => "Collection " ++ col.collection_id ++ " <" ++ col.label ++ ">"
  | none => "Details"

/-- Deep-link URL shown in the detail pane (src/ui.rs lines 195-198). -/
def detailUrl (r : StatusResult) : String :=
  match r.collection with
  | some col => col.links.ui
  | none => "N/A"

/-- Modelled from the spec: a configured profile (`name`, and the `index`
that `app.current_profile` is compared against in src/ui.rs line 267);
the `Profile` type lives in the app/config module absent from src/. -/
structure Profile where
  name : String
  index : Nat
deriving DecidableEq

/-- Modelled from the spec: the configuration (ordered profile list and
fetch interval in seconds, an i64 in `app.config.fetch_interval`); the
config module is absent from src/. -/
structure Config where
  fetch_interval : Int
  profiles : List Profile
deriving DecidableEq

/-- Modelled from the spec: `CurrentView` of app.rs (absent from src/),
used by src/update.rs line 24; the profile switcher is a two-state
machine, `main` = hidden, `profileSwitcher` = visible. -/
inductive CurrentView where
  | main
  | profileSwitcher
deriving DecidableEq

/-- Modelled from the spec: the `App` aggregate state of app.rs (absent
from src/); fields are those src/update.rs and src/ui.rs read or write.
Timestamps are whole seconds (chrono's `Duration::num_seconds` applied to
`now - last_fetch` yields whole elapsed seconds). -/
structure App where
  should_quit : Bool
  current_view : CurrentView
  current_profile : Nat
  config : Config
  status : Status
  metadata : Metadata
  error_message : String
  last_fetch : Int
  collection_selected : Option Nat
  profile_selected : Option Nat
deriving DecidableEq

/-- Modelled from the spec: `App::quit` (absent from src/) marks the app
to exit. -/
def quit (app : App) : App :=
  { app with should_quit := true }

/-- Modelled from the spec: `App::show_profile_selector` (absent from
src/) reports whether the profile switcher is the current view. -/
def show_profile_selector (app : App) : Bool :=
  decide (app.current_view = CurrentView.profileSwitcher)

/-- Total flattened row count of the current snapshot, the bound of the
main selection cursor. -/
def rowCount (app : App) : Nat :=
  (flattenRows app.status).length

/-- Modelled from the spec: `App::collection_up` (absent from src/) moves
the main selection up one row, clamping at index 0 (spec 4.3). -/
def collection_up (app : App) : App :=
  match app.collection_selected with
  | none => app
  | some i => { app with collection_selected := some (i - 1) }

/-- Modelled from the spec: `App::collection_down` (absent from src/)
moves the main selection down one row, clamping at the last row
(spec 4.3). -/
def collection_down (app : App) : App :=
  match app.collection_selected with
  | none => app
  | some i => { app with collection_selected := some (min (i + 1) (rowCount app - 1)) }

/-- Modelled from the spec: `App::profile_up` (absent from src/) moves
the switcher cursor up one profile, clamping at 0. -/
def profile_up (app : App) : App :=
  match app.profile_selected with
  | none => app
  | some i => { app with profile_selected := some (i - 1) }

/-- Modelled from the spec: `App::profile_down` (absent from src/) moves
the switcher cursor down one profile, clamping at the last profile. -/
def profile_down (app : App) : App :=
  match app.profile_selected with
  | none => app
  | some i => { app with profile_selected := some (min (i + 1) (app.config.profiles.length - 1)) }

/-- Modelled from the spec: the committed profile index when the switcher
closes — the cursor's profile becomes the new current profile
(spec 4.4). -/
def committedProfile (app : App) : Nat :=
  match app.profile_selected with
  | some i =>
    match app.config.profiles.get? i with
    | some p => p.index
    | none => app.current_profile
  | none => app.current_profile

/-- Modelled from the spec: sentinel `last_fetch` value forcing the next
due-check to fetch immediately after a profile switch (spec 4.4). -/
def refetchEpoch : Int := -(2 ^ 40)

/-- Modelled from the spec: `App::toggle_profile_selector` (absent from
src/). Hidden becomes visible; visible becomes hidden and commits the
cursor's profile, discards the snapshots, resets the main cursor and
resets the fetch timestamp (spec 4.4). -/
def toggle_profile_selector (app : App) : App :=
  match app.current_view with
  | .main => { app with current_view := .profileSwitcher }
  | .profileSwitcher =>
    { app with
      current_view := .main
      current_profile := committedProfile app
      status := { results := [], total := 0 }
      metadata := { status := "", maintenance := false,
                    app := { title := none, version := none, ftm_version := none } }
      collection_selected := none
      last_fetch := refetchEpoch }

/-- `KeyCode` variants src/update.rs matches on. -/
inductive KeyCode where
  | esc
  | enter
  | up
  | down
  | char (c : Char)
  | other
deriving DecidableEq

/-- Key modifiers: src/update.rs only tests for `CONTROL`. -/
inductive KeyModifiers where
  | none
  | control
deriving DecidableEq

/-- A key event (code plus modifiers). -/
structure KeyEvent where
  code : KeyCode
  modifiers : KeyModifiers
deriving DecidableEq

/-- `update` from src/update.rs lines 6-30: dispatches one key event
against the app state. -/
def update (app : App) (key_event : KeyEvent) : App :=
  match key_event.code with
  | .esc => quit app
  | .char c =>
    if c = 'q' then quit app
    else if c = 'c' ∨ c = 'C' then
      (if key_event.modifiers = KeyModifiers.control then quit app else app)
    else if c = 'p' then toggle_profile_selector app
    else if c = 'k' then
      (if show_profile_selector app then profile_up app else collection_up app)
    else if c = 'j' then
      (if show_profile_selector app then profile_down app else collection_down app)
    else app
  | .up => if show_profile_selector app then profile_up app else collection_up app
  | .down => if show_profile_selector app then profile_down app else collection_down app
  | .enter =>
    if app.current_view = CurrentView.profileSwitcher then toggle_profile_selector app
    else app
  | .other => app

/-- Outcome of one external call (`update_status` / `update_metadata`):
`ok` carries the freshly fetched snapshot, `err` the error rendered by
`e.to_string()`. -/
inductive FetchOutcome (α : Type) where
  | ok (value : α)
  | err (msg : String)
deriving DecidableEq

/-- The due-check guard of src/update.rs line 34:
`elapsed.num_seconds() > app.config.fetch_interval` with
`elapsed = now - app.last_fetch` in whole seconds. -/
def fetchDue (now last interval : Int) : Bool :=
  decide (interval < now - last)

/-- Modelled from the spec: `App::update_status` (absent from src/)
replaces the status snapshot on success and retains the previous one on
failure (spec 4.1/7); src/update.rs lines 35-38 then store the outcome's
message (empty on success) into `error_message`. -/
def applyStatusCall (app : App) : FetchOutcome Status → App
  | .ok s => { app with status := s, error_message := "" }
  | .err e => { app with error_message := e }

/-- Modelled from the spec: `App::update_metadata` (absent from src/)
replaces the metadata snapshot on success and retains the previous one on
failure; src/update.rs lines 39-42 then store the outcome's message into
`error_message`. -/
def applyMetadataCall (app : App) : FetchOutcome Metadata → App
  | .ok m => { app with metadata := m, error_message := "" }
  | .err e => { app with error_message := e }

/-- `fetch` from src/update.rs lines 32-45.  `now` is `Local::now()` at
the due-check, `afterCalls` the second `Local::now()` taken when
`last_fetch` is updated; the two call outcomes are passed in as the
environment's behaviour. -/
def fetch (app : App) (now afterCalls : Int)
    (statusRes : FetchOutcome Status) (metaRes : FetchOutcome Metadata) : App :=
  if fetchDue now app.last_fetch app.config.fetch_interval then
    let app1 := applyStatusCall app statusRes
    let app2 := applyMetadataCall app1 metaRes
    { app2 with last_fetch := afterCalls }
  else app

/-- A JSON value, for modelling the shape-dependent deserialization of
the backend's `stage` field. -/
inductive Json where
  | null
  | bool (b : Bool)
  | num (n : Int)
  | str (s : String)
  | arr (elems : List Json)
  | obj (fields : List (String × Json))

/-- Modelled from the spec: the per-stage record referenced by
`test_status_400_deserialization` (src/models.rs line 149 reads
`stages[0].stage`); its definition is absent from src/models.rs. -/
structure Stage where
  stage : String
deriving DecidableEq

/-- Modelled from the spec: the tagged variant over the two payload
shapes of the backend's `stage` field (a single object or an array),
referenced by src/models.rs lines 147-152 but absent from the model
code. -/
inductive StageOrStages where
  | stage (s : Stage)
  | stages (list : List Stage)
deriving DecidableEq

/-- First value bound to `key` in a JSON object's field list. -/
def getField : List (String × Json) → String → Option Json
  | [], _ => none
  | (k, v) :: rest, key => if k = key then some v else getField rest key

/-- Modelled from the spec: deserializing one stage object — requires a
string `stage` field. -/
def parseStage : Json → Option Stage
  | .obj fields =>
    match getField fields "stage" with
    | some (.str s) => some { stage := s }
    | _ => none
  | _ => none

/-- Modelled from the spec: shape-tagged deserialization of the `stage`
field, resolved once — an object yields the single-stage variant, an
array of stage objects yields the list variant, anything else fails. -/
def parseStageOrStages : Json → Option StageOrStages
  | .obj fields => (parseStage (.obj fields)).map StageOrStages.stage
  | .arr elems => (elems.mapM parseStage).map StageOrStages.stages
  | _ => none

/-- A concrete task for the end-to-end scenarios. -/
def mkTask (nm : String) : Task :=
  { todo := 4, doing := 1, succeeded := 2, failed := 0, aborted := 0,
    aborting := 0, cancelled := 0, min_ts := some "2024-01-01T00:00:00",
    max_ts := none, name := nm, remaining_time := none, took := none,
    total := 7, active := 5, finished := 2 }

/-- A concrete queue holding the given tasks. -/
def mkQueue (nm : String) (ts : List Task) : Queue :=
  { todo := 4, doing := 1, succeeded := 2, failed := 0, aborted := 0,
    aborting := 0, cancelled := 0, min_ts := none, max_ts := none,
    name := nm, tasks := ts, remaining_time := none, took := none,
    total := 7, active := 5, finished := 2 }

/-- A concrete batch holding the given queues. -/
def mkBatch (nm : String) (qs : List Queue) : Batch :=
  { todo := 4, doing := 1, succeeded := 2, failed := 0, aborted := 0,
    aborting := 0, cancelled := 0, min_ts := none, max_ts := none,
    name := nm, queues := qs, remaining_time := none, took := none,
    total := 7, active := 5, finished := 2 }

/-- Scenario A's single result: named "export-job", no bound collection,
zero batches. -/
def scenAResult : StatusResult :=
  { todo := 3, doing := 0, succeeded := 1, failed := 0, aborted := 0,
    aborting := 0, cancelled := 0, min_ts := none, max_ts := none,
    name := "export-job", batches := [], collection := none,
    remaining_time := none, took := none, total := 4, active := 3,
    finished := 1 }

/-- Scenario A: a status with one collection-less result. -/
def scenA : Status :=
  { results := [scenAResult], total := 4 }

/-- A concrete bound collection for scenario B. -/
def scenBCollection : Collection :=
  { created_at := "2023-05-01", updated_at := "2024-02-02",
    category := "leak", frequency := "unknown", countries := none,
    name := "acme_leak", collection_id := "17", foreign_id := "acme",
    label := "ACME Leak", casefile := false, secret := false, id := "17",
    writeable := false,
    links := { self_ := "https://aleph.example/api/2/collections/17",
               xref_export := "", reconcile := "",
               ui := "https://aleph.example/collections/17" },
    shallow := false }

/-- Scenario B's result: a bound collection and one batch with one queue
holding two tasks. -/
def scenBResult : StatusResult :=
  { todo := 4, doing := 1, succeeded := 2, failed := 0, aborted := 0,
    aborting := 0, cancelled := 0, min_ts := some "2024-01-01T00:00:00",
    max_ts := none, name := "acme_leak",
    batches := [mkBatch "batch-1" [mkQueue "index" [mkTask "ingest", mkTask "analyze"]]],
    collection := some scenBCollection, remaining_time := some "5m",
    took := none, total := 7, active := 5, finished := 2 }

/-- Scenario B: a status with one result owning two tasks. -/
def scenB : Status :=
  { results := [scenBResult], total := 7 }

/-- A concrete metadata snapshot for the fetch scenarios. -/
def sampleMetadata : Metadata :=
  { status := "ok", maintenance := false,
    app := { title := some "OCCRP Aleph", version := some "3.15.5",
             ftm_version := some "3.5.8" } }

/-- A concrete app state whose fetch is due at `now = 100`
(`last_fetch = 0`, `fetch_interval = 30`). -/
def sampleApp : App :=
  { should_quit := false, current_view := CurrentView.main,
    current_profile := 0,
    config := { fetch_interval := 30,
                profiles := [{ name := "prod", index := 0 }, { name := "dev", index := 1 }] },
    status := scenB, metadata := sampleMetadata, error_message := "",
    last_fetch := 0, collection_selected := some 0,
    profile_selected := some 1 }

/-- `sampleApp` with the profile switcher open. -/
def switcherApp : App :=
  { sampleApp with current_view := CurrentView.profileSwitcher }

theorem length_taskRowsOf (i : Nat) (r : StatusResult) :
    (taskRowsOf i r).length = taskCount r := by
  simp [taskRowsOf, taskCount, List.length_flatMap, List.map_map, Function.comp_def,
    List.length_map]

theorem length_resultBlock (i : Nat) (r : StatusResult) :
    (resultBlock i r).length = 1 + taskCount r := by
  simp [resultBlock, length_taskRowsOf]
  omega

theorem owner_of_mem_taskRowsOf (i : Nat) (r : StatusResult) (row : DisplayRow)
    (h : row ∈ taskRowsOf i r) : ∃ cells, row = DisplayRow.taskRow i cells := by
  simp only [taskRowsOf, List.mem_flatMap, List.mem_map] at h
  obtain ⟨b, _, q, _, t, _, rfl⟩ := h
  exact ⟨taskCells b t, rfl⟩

theorem owner_of_mem_resultBlock (i : Nat) (r : StatusResult) (row : DisplayRow)
    (h : row ∈ resultBlock i r) : rowOwner row = i := by
  rcases List.mem_cons.mp h with h | h
  · subst h; rfl
  · obtain ⟨cells, rfl⟩ := owner_of_mem_taskRowsOf i r row h
    rfl

theorem owner_ge_of_mem_flattenFrom :
    ∀ (l : List StatusResult) (n : Nat) (row : DisplayRow),
      row ∈ flattenFrom n l → n ≤ rowOwner row := by
  intro l
  induction l with
  | nil => intro n row h; simp [flattenFrom] at h
  | cons r rest ih =>
    intro n row h
    rcases List.mem_append.mp h with h | h
    · rw [owner_of_mem_resultBlock n r row h]
    · exact Nat.le_of_succ_le (ih (n + 1) row h)

theorem pairwise_owner_flattenFrom :
    ∀ (l : List StatusResult) (n : Nat),
      (flattenFrom n l).Pairwise (fun a b => rowOwner a ≤ rowOwner b) := by
  intro l
  induction l with
  | nil => intro n; simp [flattenFrom]
  | cons r rest ih =>
    intro n
    rw [flattenFrom, List.pairwise_append]
    refine ⟨?_, ih (n + 1), ?_⟩
    · refine List.pairwise_of_forall_mem_list ?_
      intro a ha b hb
      rw [owner_of_mem_resultBlock n r a ha, owner_of_mem_resultBlock n r b hb]
    · intro a ha b hb
      rw [owner_of_mem_resultBlock n r a ha]
      exact Nat.le_of_succ_le (owner_ge_of_mem_flattenFrom rest (n + 1) b hb)

theorem filter_flattenFrom :
    ∀ (l : List StatusResult) (n k : Nat) (r : StatusResult),
      l.get? k = some r →
      (flattenFrom n l).filter (fun row => rowOwner row == n + k) = resultBlock (n + k) r := by
  intro l
  induction l with
  | nil => intro n k r h; simp at h
  | cons r0 rest ih =>
    intro n k r h
    rw [flattenFrom, List.filter_append]
    cases k with
    | zero =>
      simp only [List.get?] at h
      injection h with h
      subst h
      have h1 : (resultBlock n r0).filter (fun row => rowOwner row == n + 0) = resultBlock n r0 := by
        refine List.filter_eq_self.mpr ?_
        intro a ha
        simp [owner_of_mem_resultBlock n r0 a ha]
      have h2 : (flattenFrom (n + 1) rest).filter (fun row => rowOwner row == n + 0) = [] := by
        refine List.filter_eq_nil_iff.mpr ?_
        intro a ha
        have hge := owner_ge_of_mem_flattenFrom rest (n + 1) a ha
        simp only [beq_iff_eq]
        omega
      rw [h1, h2, List.append_nil, Nat.add_zero]
    | succ k' =>
      have h1 : (resultBlock n r0).filter (fun row => rowOwner row == n + (k' + 1)) = [] := by
        refine List.filter_eq_nil_iff.mpr ?_
        intro a ha
        have heq := owner_of_mem_resultBlock n r0 a ha
        simp only [beq_iff_eq, heq]
        omega
      have e : n + (k' + 1) = n + 1 + k' := by omega
      rw [h1, List.nil_append, e]
      exact ih (n + 1) k' r h

theorem length_flattenFrom :
    ∀ (l : List StatusResult) (n : Nat),
      (flattenFrom n l).length = l.length + (l.map taskCount).sum := by
  intro l
  induction l with
  | nil => intro n; simp [flattenFrom]
  | cons r rest ih =>
    intro n
    rw [flattenFrom, List.length_append, length_resultBlock, ih (n + 1)]
    simp
    omega

/-- C3: the flattened row sequence has exactly one row per result plus
one row per task across all results, and flattening the same snapshot is
deterministic (a pure function of the snapshot). -/
theorem flatten_row_count_deterministic (s : Status) :
    (flattenRows s).length = s.results.length + (s.results.map taskCount).sum ∧
    flattenRows s = flattenRows s :=
  ⟨length_flattenFrom s.results 0, rfl⟩

/-- C4: the result positions along the flattened sequence are
non-decreasing — every row of an earlier result precedes every row of a
later result — and the rows owned by result `k` are exactly its
collection row followed by its task rows in depth-first
batch-queue-task order. -/
theorem flatten_row_order (s : Status) :
    ((flattenRows s).map rowOwner).Pairwise (· ≤ ·) ∧
    ∀ k r, s.results.get? k = some r →
      (flattenRows s).filter (fun row => rowOwner row == k) = resultBlock k r := by
  constructor
  · rw [List.pairwise_map]
    exact pairwise_owner_flattenFrom s.results 0
  · intro k r h
    have hf := filter_flattenFrom s.results 0 k r h
    simpa using hf

/-- C4 witness: scenario B's rows owned by result 0 are its whole flattened
block. -/
theorem flatten_row_order_witness :
    (flattenRows scenB).filter (fun row => rowOwner row == 0) = resultBlock 0 scenBResult :=
  (flatten_row_order scenB).2 0 scenBResult rfl

theorem get?_flattenFrom_collection :
    ∀ (l : List StatusResult) (n k : Nat) (r : StatusResult),
      l.get? k = some r →
      (flattenFrom n l).get? (rowStart l k) =
        some (DisplayRow.collectionRow (n + k) (collectionCells r)) := by
  intro l
  induction l with
  | nil => intro n k r h; simp at h
  | cons r0 rest ih =>
    intro n k r h
    cases k with
    | zero =>
      simp only [List.get?] at h
      injection h with h
      subst h
      simp [flattenFrom, rowStart, resultBlock, List.cons_append]
    | succ k' =>
      have hlen : (resultBlock n r0).length = 1 + taskCount r0 := length_resultBlock n r0
      rw [flattenFrom]
      have hstart : rowStart (r0 :: rest) (k' + 1) = 1 + taskCount r0 + rowStart rest k' := rfl
      rw [hstart, List.get?_append_right (by omega)]
      have e : 1 + taskCount r0 + rowStart rest k' - (resultBlock n r0).length = rowStart rest k' := by
        omega
      rw [e]
      have e2 : n + (k' + 1) = n + 1 + k' := by omega
      rw [e2]
      exact ih (n + 1) k' r h

theorem get?_flattenFrom_task :
    ∀ (l : List StatusResult) (n k : Nat) (r : StatusResult) (d : Nat),
      l.get? k = some r → 0 < d → d ≤ taskCount r →
      ∃ cells, (flattenFrom n l).get? (rowStart l k + d) =
        some (DisplayRow.taskRow (n + k) cells) := by
  intro l
  induction l with
  | nil => intro n k r d h; simp at h
  | cons r0 rest ih =>
    intro n k r d h hd hdt
    cases k with
    | zero =>
      simp only [List.get?] at h
      injection h with h
      subst h
      have hcase : (taskRowsOf n r0).get? (d - 1) = none ∨
          ∃ row, (taskRowsOf n r0).get? (d - 1) = some row := by
        cases (taskRowsOf n r0).get? (d - 1) with
        | none => exact Or.inl rfl
        | some row => exact Or.inr ⟨row, rfl⟩
      rcases hcase with hnone | ⟨row, hrow⟩
      · have hlen := List.get?_eq_none.mp hnone
        rw [length_taskRowsOf] at hlen
        omega
      · have hmem := List.get?_mem hrow
        obtain ⟨cells, rfl⟩ := owner_of_mem_taskRowsOf n r0 row hmem
        refine ⟨cells, ?_⟩
        have hsplit : flattenFrom n (r0 :: rest) =
            DisplayRow.collectionRow n (collectionCells r0) ::
              (taskRowsOf n r0 ++ flattenFrom (n + 1) rest) := by
          rw [flattenFrom, resultBlock, List.cons_append]
        rw [hsplit]
        have hstart : rowStart (r0 :: rest) 0 + d = d := by
          simp [rowStart]
        rw [hstart]
        have hd1 : d = (d - 1) + 1 := by omega
        rw [hd1]
        simp only [List.get?]
        rw [List.get?_append (by rw [length_taskRowsOf]; omega), hrow]
        simp
    | succ k' =>
      have hlen : (resultBlock n r0).length = 1 + taskCount r0 := length_resultBlock n r0
      rw [flattenFrom]
      have hstart : rowStart (r0 :: rest) (k' + 1) = 1 + taskCount r0 + rowStart rest k' := rfl
      rw [hstart, List.get?_append_right (by omega)]
      have e : 1 + taskCount r0 + rowStart rest k' + d - (resultBlock n r0).length =
          rowStart rest k' + d := by
        omega
      rw [e]
      have e2 : n + (k' + 1) = n + 1 + k' := by omega
      rw [e2]
      exact ih (n + 1) k' r d h hd hdt

theorem findResult_none_of_lt :
    ∀ (l : List StatusResult) (cur index : Nat), index < cur →
      findResult l cur index = none := by
  intro l
  induction l with
  | nil => intro cur index h; rfl
  | cons r rest ih =>
    intro cur index h
    rw [findResult, if_neg (by omega)]
    exact ih (cur + 1 + taskCount r) index (by omega)

theorem findResult_rowStart :
    ∀ (l : List StatusResult) (k : Nat) (r : StatusResult) (cur : Nat),
      l.get? k = some r →
      findResult l cur (cur + rowStart l k) = some r := by
  intro l
  induction l with
  | nil => intro k r cur h; simp at h
  | cons r0 rest ih =>
    intro k r cur h
    cases k with
    | zero =>
      simp only [List.get?] at h
      injection h with h
      subst h
      have hstart : rowStart (r0 :: rest) 0 = 0 := rfl
      rw [hstart, Nat.add_zero, findResult, if_pos rfl]
    | succ k' =>
      have hstart : rowStart (r0 :: rest) (k' + 1) = 1 + taskCount r0 + rowStart rest k' := rfl
      rw [hstart, findResult, if_neg (by omega)]
      have e : cur + (1 + taskCount r0 + rowStart rest k') =
          (cur + 1 + taskCount r0) + rowStart rest k' := by omega
      rw [e]
      exact ih k' r (cur + 1 + taskCount r0) h

theorem findResult_taskIndex_none :
    ∀ (l : List StatusResult) (k : Nat) (r : StatusResult) (cur d : Nat),
      l.get? k = some r → 0 < d → d ≤ taskCount r →
      findResult l cur (cur + rowStart l k + d) = none := by
  intro l
  induction l with
  | nil => intro k r cur d h; simp at h
  | cons r0 rest ih =>
    intro k r cur d h hd hdt
    cases k with
    | zero =>
      simp only [List.get?] at h
      injection h with h
      subst h
      have hstart : rowStart (r0 :: rest) 0 = 0 := rfl
      rw [hstart, Nat.add_zero, findResult, if_neg (by omega)]
      exact findResult_none_of_lt rest (cur + 1 + taskCount r0) (cur + d) (by omega)
    | succ k' =>
      have hstart : rowStart (r0 :: rest) (k' + 1) = 1 + taskCount r0 + rowStart rest k' := rfl
      rw [hstart, findResult, if_neg (by omega)]
      have e : cur + (1 + taskCount r0 + rowStart rest k') + d =
          (cur + 1 + taskCount r0) + rowStart rest k' + d := by omega
      rw [e]
      exact ih k' r (cur + 1 + taskCount r0) d h hd hdt

/-- C1 counterexample: in scenario B (one result, one batch, one queue,
two tasks) the flattened rows are one collection row and two task rows,
the collection-row index resolves to the result, but both task-row
indices (1 and 2) resolve to no result at all — `selected_result` stays
`None`, so no detail pane is produced, contradicting the claim that they
resolve to the result at index 0. -/
theorem taskrow_resolves_none_cex :
    (flattenRows scenB).map rowOwner = [0, 0, 0] ∧
    resolveDetail scenB 0 = some scenBResult ∧
    resolveDetail scenB 1 = none ∧
    resolveDetail scenB 2 = none := by
  refine ⟨rfl, rfl, rfl, rfl⟩

/-- C1 amended: detail resolution maps the flattened index of each
result's collection row to that result, and every task-row index (a
collection row's index shifted by 1 up to the result's task count)
resolves to `none`, so a detail pane is produced only for collection-row
indices, never for task rows. -/
theorem resolveDetail_collection_rows_only (s : Status) :
    ∀ k r, s.results.get? k = some r →
      (resolveDetail s (rowStart s.results k) = some r ∧
        (flattenRows s).get? (rowStart s.results k) =
          some (DisplayRow.collectionRow k (collectionCells r))) ∧
      ∀ d, 0 < d → d ≤ taskCount r →
        resolveDetail s (rowStart s.results k + d) = none ∧
        ∃ cells, (flattenRows s).get? (rowStart s.results k + d) =
          some (DisplayRow.taskRow k cells) := by
  intro k r h
  refine ⟨⟨?_, ?_⟩, ?_⟩
  · have hf := findResult_rowStart s.results k r 0 h
    simpa [resolveDetail] using hf
  · have hg := get?_flattenFrom_collection s.results 0 k r h
    simpa [flattenRows] using hg
  · intro d hd hdt
    constructor
    · have hf := findResult_taskIndex_none s.results k r 0 d h hd hdt
      simpa [resolveDetail] using hf
    · have hg := get?_flattenFrom_task s.results 0 k r d h hd hdt
      simpa [flattenRows] using hg

/-- C1 amended witness: in scenario B the collection row of result 0 sits
at flattened index 0 and resolves to the result; index 1 (its first task
row) resolves to none. -/
theorem resolveDetail_collection_rows_only_witness :
    resolveDetail scenB (rowStart scenB.results 0) = some scenBResult ∧
    resolveDetail scenB (rowStart scenB.results 0 + 1) = none := by
  have h := resolveDetail_collection_rows_only scenB 0 scenBResult rfl
  exact ⟨h.1.1, (h.2 1 (by decide) (by decide)).1⟩

/-- C7 counterexample: in scenario A the selected collection-less result
is named "export-job", but the detail pane's title is the constant
"Details" — the detail label does not fall back to the result's name. -/
theorem detail_title_constant_cex :
    resolveDetail scenA 0 = some scenAResult ∧
    detailTitle scenAResult = "Details" ∧
    scenAResult.name = "export-job" ∧
    detailTitle scenAResult ≠ scenAResult.name := by
  refine ⟨rfl, rfl, rfl, by decide⟩

/-- C7 amended: scenario A (one result, no collection, zero batches)
flattens to exactly one collection row whose label cell falls back to the
result's name "export-job"; selecting it resolves to the result, whose
detail pane shows the constant title "Details" and the deep-link URL
"N/A". -/
theorem scenarioA_flatten_and_detail :
    flattenRows scenA = [DisplayRow.collectionRow 0 (collectionCells scenAResult)] ∧
    (collectionCells scenAResult).get? 2 = some "export-job" ∧
    resolveDetail scenA 0 = some scenAResult ∧
    detailTitle scenAResult = "Details" ∧
    detailUrl scenAResult = "N/A" := by
  refine ⟨rfl, rfl, rfl, rfl, rfl⟩

theorem fetch_of_not_due (app : App) (now afterCalls : Int)
    (sr : FetchOutcome Status) (mr : FetchOutcome Metadata)
    (h : fetchDue now app.last_fetch app.config.fetch_interval = false) :
    fetch app now afterCalls sr mr = app := by
  simp [fetch, h]

theorem fetch_config_eq (app : App) (now afterCalls : Int)
    (sr : FetchOutcome Status) (mr : FetchOutcome Metadata) :
    (fetch app now afterCalls sr mr).config = app.config := by
  cases h : fetchDue now app.last_fetch app.config.fetch_interval <;>
    cases sr <;> cases mr <;>
      simp [fetch, h, applyStatusCall, applyMetadataCall]

theorem fetch_last_fetch_of_due (app : App) (now afterCalls : Int)
    (sr : FetchOutcome Status) (mr : FetchOutcome Metadata)
    (h : fetchDue now app.last_fetch app.config.fetch_interval = true) :
    (fetch app now afterCalls sr mr).last_fetch = afterCalls := by
  cases sr <;> cases mr <;>
    simp [fetch, h, applyStatusCall, applyMetadataCall]

/-- C5: the throttle guard is the strict comparison
`now - last > interval`: equality of the elapsed seconds with the interval
does not trigger, one second more does. -/
theorem fetch_due_strict_inequality (now last interval : Int) :
    (fetchDue now last interval = true ↔ interval < now - last) ∧
    (now - last = interval → fetchDue now last interval = false) ∧
    (now - last = interval + 1 → fetchDue now last interval = true) := by
  refine ⟨by simp [fetchDue], ?_, ?_⟩ <;>
    intro h <;> simp [fetchDue] <;> omega

/-- C5 witness: with `last = 0` and a 30-second interval, the guard is
false at `now = 30` and true at `now = 31`. -/
theorem fetch_due_strict_inequality_witness :
    fetchDue 30 0 30 = false ∧ fetchDue 31 0 30 = true :=
  ⟨(fetch_due_strict_inequality 30 0 30).2.1 (by decide),
   (fetch_due_strict_inequality 31 0 30).2.2 (by decide)⟩

/-- C2 counterexample: on a due tick of `sampleApp` where the status call
fails with "status boom" and the metadata call then succeeds, the
displayed error message after the tick is empty, not "status boom" — the
metadata success wiped the status error from the single message slot. -/
theorem metadata_overwrites_status_error_cex :
    fetchDue 100 sampleApp.last_fetch sampleApp.config.fetch_interval = true ∧
    (fetch sampleApp 100 101 (FetchOutcome.err "status boom")
        (FetchOutcome.ok sampleMetadata)).error_message = "" := by
  exact ⟨rfl, rfl⟩

/-- C2 amended: there is a single error-message slot; on a due tick the
status call's outcome is written to it and then unconditionally
overwritten by the metadata call's outcome, so after the tick the
displayed message is the metadata error when the metadata call failed and
empty otherwise — a status error followed by a metadata success is not
displayed. -/
theorem fetch_error_message_last_call_wins (app : App) (now afterCalls : Int)
    (statusRes : FetchOutcome Status) (metaRes : FetchOutcome Metadata)
    (hdue : fetchDue now app.last_fetch app.config.fetch_interval = true) :
    (fetch app now afterCalls statusRes metaRes).error_message =
      match metaRes with
      | .ok _ => ""
      | .err e => e := by
  cases metaRes <;> cases statusRes <;>
    simp [fetch, hdue, applyStatusCall, applyMetadataCall]

/-- C2 amended witness: a failing status call followed by a successful
metadata call on a due tick leaves an empty message. -/
theorem fetch_error_message_last_call_wins_witness :
    (fetch sampleApp 100 101 (FetchOutcome.err "status boom")
        (FetchOutcome.ok sampleMetadata)).error_message = "" :=
  fetch_error_message_last_call_wins sampleApp 100 101
    (FetchOutcome.err "status boom") (FetchOutcome.ok sampleMetadata) rfl

/-- C6: on a due tick, `last_fetch` becomes the time taken after both
calls, for every combination of call outcomes; consequently a further
fetch attempt within one interval of that time is a complete no-op even
when both calls had failed. -/
theorem fetch_updates_last_fetch_unconditionally (app : App) (now afterCalls : Int)
    (statusRes : FetchOutcome Status) (metaRes : FetchOutcome Metadata)
    (hdue : fetchDue now app.last_fetch app.config.fetch_interval = true) :
    (fetch app now afterCalls statusRes metaRes).last_fetch = afterCalls ∧
    ∀ now2 after2 sr2 mr2, now2 - afterCalls ≤ app.config.fetch_interval →
      fetch (fetch app now afterCalls statusRes metaRes) now2 after2 sr2 mr2 =
        fetch app now afterCalls statusRes metaRes := by
  refine ⟨fetch_last_fetch_of_due app now afterCalls statusRes metaRes hdue, ?_⟩
  intro now2 after2 sr2 mr2 hle
  refine fetch_of_not_due _ now2 after2 sr2 mr2 ?_
  rw [fetch_last_fetch_of_due app now afterCalls statusRes metaRes hdue,
    fetch_config_eq app now afterCalls statusRes metaRes]
  simp [fetchDue]
  omega

/-- C6 witness: a due tick with both calls failing still records
`last_fetch = 101`, and a retry at `now = 120` (within the 30 second
interval) changes nothing. -/
theorem fetch_updates_last_fetch_unconditionally_witness :
    (fetch sampleApp 100 101 (FetchOutcome.err "a") (FetchOutcome.err "b")).last_fetch = 101 ∧
    fetch (fetch sampleApp 100 101 (FetchOutcome.err "a") (FetchOutcome.err "b"))
        120 121 (FetchOutcome.ok scenA) (FetchOutcome.ok sampleMetadata) =
      fetch sampleApp 100 101 (FetchOutcome.err "a") (FetchOutcome.err "b") :=
  ⟨(fetch_updates_last_fetch_unconditionally sampleApp 100 101
      (FetchOutcome.err "a") (FetchOutcome.err "b") rfl).1,
   (fetch_updates_last_fetch_unconditionally sampleApp 100 101
      (FetchOutcome.err "a") (FetchOutcome.err "b") rfl).2
      120 121 (FetchOutcome.ok scenA) (FetchOutcome.ok sampleMetadata) (by decide)⟩

/-- C10: when the elapsed whole seconds do not exceed the interval, fetch
leaves the entire app state unchanged and never consults the external
call outcomes. -/
theorem fetch_not_due_noop (app : App) (now afterCalls : Int)
    (sr1 sr2 : FetchOutcome Status) (mr1 mr2 : FetchOutcome Metadata)
    (h : now - app.last_fetch ≤ app.config.fetch_interval) :
    fetch app now afterCalls sr1 mr1 = app ∧
    fetch app now afterCalls sr1 mr1 = fetch app now afterCalls sr2 mr2 := by
  have hd : fetchDue now app.last_fetch app.config.fetch_interval = false := by
    simp [fetchDue]
    omega
  rw [fetch_of_not_due app now afterCalls sr1 mr1 hd,
    fetch_of_not_due app now afterCalls sr2 mr2 hd]
  exact ⟨rfl, rfl⟩

/-- C10 witness: at `now = 20` with `last_fetch = 0` and a 30-second
interval, a fetch attempt changes nothing, whatever the environment would
have answered. -/
theorem fetch_not_due_noop_witness :
    fetch sampleApp 20 21 (FetchOutcome.err "x") (FetchOutcome.ok sampleMetadata) = sampleApp :=
  (fetch_not_due_noop sampleApp 20 21 (FetchOutcome.err "x") (FetchOutcome.ok scenA)
    (FetchOutcome.ok sampleMetadata) (FetchOutcome.err "y") (by decide)).1

/-- C9: Enter is context-sensitive — with the profile switcher visible it
hides the switcher and commits the cursor's profile pick; with the
switcher hidden it is a no-op on the whole app state. -/
theorem enter_confirm_context_sensitive (app : App) (mods : KeyModifiers) :
    (app.current_view = CurrentView.profileSwitcher →
      (update app { code := KeyCode.enter, modifiers := mods }).current_view =
          CurrentView.main ∧
        (update app { code := KeyCode.enter, modifiers := mods }).current_profile =
          committedProfile app) ∧
    (app.current_view = CurrentView.main →
      update app { code := KeyCode.enter, modifiers := mods } = app) := by
  constructor
  · intro h
    constructor <;> simp [update, h, toggle_profile_selector]
  · intro h
    simp [update, h]

/-- C9 witness: Enter on the open switcher of `switcherApp` returns to the
main view; Enter on `sampleApp` (switcher hidden) changes nothing. -/
theorem enter_confirm_context_sensitive_witness :
    (update switcherApp { code := KeyCode.enter, modifiers := KeyModifiers.none }).current_view =
        CurrentView.main ∧
    update sampleApp { code := KeyCode.enter, modifiers := KeyModifiers.none } = sampleApp :=
  ⟨((enter_confirm_context_sensitive switcherApp KeyModifiers.none).1 rfl).1,
   (enter_confirm_context_sensitive sampleApp KeyModifiers.none).2 rfl⟩

theorem mapM_parseStage (ss : List String) :
    (ss.map fun nm => Json.obj [("stage", Json.str nm)]).mapM parseStage =
      some (ss.map fun nm => ({ stage := nm } : Stage)) := by
  induction ss with
  | nil => rfl
  | cons a rest ih =>
    simp only [List.map_cons, List.mapM_cons, ih]
    rfl

/-- C8: the backend's `stage` field is a tagged variant over its two
payload shapes, resolved at deserialization time — an object payload
deserializes to the single-stage variant and an array payload to the
stage-list variant. -/
theorem stage_variant_deserialization (s : String) (ss : List String) :
    parseStageOrStages (Json.obj [("stage", Json.str s)]) =
      some (StageOrStages.stage { stage := s }) ∧
    parseStageOrStages (Json.arr (ss.map fun nm => Json.obj [("stage", Json.str nm)])) =
      some (StageOrStages.stages (ss.map fun nm => { stage := nm })) := by
  constructor
  · rfl
  · rw [parseStageOrStages, mapM_parseStage ss]
    rfl

end Aleph
